import Mathlib

/-!
Shallow embedding of `imitation.py` (behavioral-cloning imitation learning).

The repository's own code is orchestration glue around opaque external
collaborators (keras models, a gym environment, the filesystem).  We embed:

* an environment as a deterministic transition structure (`Env`);
* a policy as a function from observations to a predicted
  probability vector (`Policy`), with greedy `np.argmax` selection;
* the rollout loop `Imitation.generate_episode` as a fuel-indexed recursion
  (`none` models an episode that does not terminate within the fuel);
* the training-data aggregation and return value of `Imitation.train`, with
  `model.fit` as an opaque function producing a `History`;
* the persistence side effects of `train` and the weight loading of
  `evaluate` over an explicit filesystem state (`FS`);
* the reward-accumulation loops of `Imitation.evaluate`;
* the mode dispatch of `main`.

Predictions and rewards are modelled as exact rationals; nothing in the
claims depends on floating-point rounding.
-/

namespace Imitation

/-- First index of the maximum element, as `np.argmax`: ties are broken
towards the earlier index (numpy returns the first occurrence).
`best`/`bestv` hold the current best index and value, `i` the index of the
head of the remaining list. -/
def argmaxAux : List Rat → Nat → Nat → Rat → Nat
  | [], _, best, _ => best
  | x :: xs, i, best, bestv =>
    if bestv < x then argmaxAux xs (i + 1) i x else argmaxAux xs (i + 1) best bestv

/-- `np.argmax` over a vector of predictions.  numpy raises on an empty
array; the claims only use it on nonempty prediction vectors, where the
result is the first index attaining the maximum. -/
def npArgmax : List Rat → Nat
  | [] => 0
  | x :: xs => argmaxAux xs 1 0 x

/-- `np.zeros(n)` followed by `v[i] = 1`: the one-hot encoding of action `i`
among `n` actions (source lines 88–89 and 55–56). -/
def oneHot (n i : Nat) : List Nat :=
  (List.range n).map fun j => if j = i then 1 else 0

/-- A deterministic gym-style environment: `reset` returns the initial
observation, `step` maps an observation and an action index to
`(observation, reward, done)` (the `info` component of the Python tuple is
discarded by every call site), and `action_space_n` is `env.action_space.n`. -/
structure Env (S : Type) where
  reset : S
  step : S → Nat → S × Rat × Bool
  action_space_n : Nat

/-- A policy network's `predict` on a single observation: the vector of
predicted action probabilities. -/
abbrev Policy (S : Type) := S → List Rat

/-- The `while True` loop of `Imitation.generate_episode`, from a current
observation: select the arg-max action, step the environment, break on
`done` *before* recording, otherwise record the post-step observation, the
one-hot action and the reward.  Fuel bounds the number of iterations;
`none` means the episode did not terminate within the fuel. -/
def genLoop {S : Type} (model : Policy S) (env : Env S) :
    Nat → S → Option (List S × List (List Nat) × List Rat)
  | 0, _ => none
  | fuel + 1, obs =>
    let action := npArgmax (model obs)
    let res := env.step obs action
    if res.2.2 then some ([], [], [])
    else (genLoop model env fuel res.1).map fun t =>
      (res.1 :: t.1, oneHot env.action_space_n action :: t.2.1, res.2.1 :: t.2.2)

/-- `Imitation.generate_episode(model, env)`: reset, then run the loop.
Returns the `(states, actions, rewards)` triple. -/
def generate_episode {S : Type} (model : Policy S) (env : Env S) (fuel : Nat) :
    Option (List S × List (List Nat) × List Rat) :=
  genLoop model env fuel env.reset

/-- `Imitation.run_model(env)`: roll out the *student* model, discard the
student's own actions, and relabel every visited state with the one-hot
encoding of the expert's arg-max prediction (source lines 52–58).  The
Python `for s in states` loop appending to a list is the fold below. -/
def run_model {S : Type} (expert model : Policy S) (env : Env S) (fuel : Nat) :
    Option (List S × List (List Nat) × List Rat) :=
  match generate_episode model env fuel with
  | none => none
  | some (states, _, rewards) =>
    let expert_actions := states.foldl
      (fun acc s => acc ++ [oneHot env.action_space_n (npArgmax (expert s))]) []
    some (states, expert_actions, rewards)

/-- The claim's notion of a one-hot vector: exactly one entry equal to `1`
and every other entry equal to `0`. -/
def isOneHot (v : List Nat) : Prop :=
  ∃ i, i < v.length ∧ v.getD i 0 = 1 ∧ ∀ j, j < v.length → j ≠ i → v.getD j 0 = 0

/-- The expert-data aggregation loop of `Imitation.train` (source lines
105–112): starting from empty observation/action matrices, run the expert
for `num_episodes` episodes and append each episode's states and one-hot
actions.  Row concatenation on numpy arrays is list append. -/
def trainData {S : Type} (expert : Policy S) (env : Env S) (fuel : Nat) :
    Nat → Option (List S × List (List Nat))
  | 0 => some ([], [])
  | n + 1 =>
    match trainData expert env fuel n, generate_episode expert env fuel with
    | some (ts, ta), some (ss, as, _) => some (ts ++ ss, ta ++ as)
    | _, _ => none

/-- `model.fit`'s returned history: the per-epoch loss and accuracy scalars
(`history.history['loss']` and `history.history['acc']`). -/
structure History where
  loss : List Rat
  acc : List Rat

/-- `','.join(str(k) for k in l)` as used when persisting loss/accuracy. -/
def commaJoin (l : List Rat) : String :=
  String.intercalate "," (l.map toString)

/-- Filesystem state: the set of existing directories and the files as an
association list from `(directory, filename)` to contents; a later write to
the same path shadows an earlier one. -/
structure FS where
  dirs : List String
  files : List ((String × String) × String)

/-- `if not os.path.isdir(d): os.mkdir(d)`. -/
def mkdirIfAbsent (fs : FS) (d : String) : FS :=
  if d ∈ fs.dirs then fs else ⟨d :: fs.dirs, fs.files⟩

/-- Writing (or overwriting) a file. -/
def writeFile (fs : FS) (p : String × String) (c : String) : FS :=
  ⟨fs.dirs, (p, c) :: fs.files⟩

/-- Most recent contents written at a path. -/
def findFile : List ((String × String) × String) → (String × String) → Option String
  | [], _ => none
  | (q, c) :: rest, p => if q = p then some c else findFile rest p

/-- Reading a file: `none` when the path does not exist. -/
def readFile (fs : FS) (p : String × String) : Option String :=
  findFile fs.files p

/-- `Imitation.train` (source lines 95–137): aggregate expert data, fit the
student (`fit` is the opaque optimizer, `newWeights` the opaque fitted
weight blob it produces), create the `model`/`loss`/`acc` directories if
absent, persist weights and comma-joined histories, and return the *first*
epoch's loss and accuracy (`history.history['loss'][0]`,
`history.history['acc'][0]`).  `none` models an uncaught exception (a
non-terminating episode, or indexing an empty history). -/
def train {S : Type} (expert : Policy S) (env : Env S) (fuel num_episodes : Nat)
    (fit : List S → List (List Nat) → History) (newWeights : String)
    (fs : FS) (log_dir : String) : Option (FS × Rat × Rat) :=
  match trainData expert env fuel num_episodes with
  | none => none
  | some (ts, ta) =>
    let history := fit ts ta
    let fs1 := writeFile (mkdirIfAbsent fs "model") ("model", log_dir ++ ".h5") newWeights
    let fs2 := writeFile (mkdirIfAbsent fs1 "loss") ("loss", log_dir ++ ".txt")
      (commaJoin history.loss)
    let fs3 := writeFile (mkdirIfAbsent fs2 "acc") ("acc", log_dir ++ ".txt")
      (commaJoin history.acc)
    match history.loss, history.acc with
    | l :: _, a :: _ => some (fs3, l, a)
    | _, _ => none

/-- One reward-accumulation loop of `Imitation.evaluate` (source lines
149–156 and 166–173): step greedily, break on `done` *before* adding the
reward, otherwise add the reward to the running total. -/
def evalLoop {S : Type} (model : Policy S) (env : Env S) : Nat → S → Rat → Option Rat
  | 0, _, _ => none
  | fuel + 1, obs, total =>
    let action := npArgmax (model obs)
    let res := env.step obs action
    if res.2.2 then some total
    else evalLoop model env fuel res.1 (total + res.2.1)

/-- One evaluation episode: reset, then accumulate from `total_reward = 0`. -/
def evalEpisode {S : Type} (model : Policy S) (env : Env S) (fuel : Nat) : Option Rat :=
  evalLoop model env fuel env.reset 0

/-- The per-policy episode loop of `Imitation.evaluate`: the list of
per-episode total rewards, appended in episode order. -/
def evalTotals {S : Type} (model : Policy S) (env : Env S) (fuel : Nat) :
    Nat → Option (List Rat)
  | 0 => some []
  | n + 1 =>
    match evalTotals model env fuel n, evalEpisode model env fuel with
    | some ts, some t => some (ts ++ [t])
    | _, _ => none

/-- `self.model.load_weights(path)`: the external loader raises an uncaught
error when the file does not exist, modelled as `Except.error`; on success
it yields the stored weight blob. -/
def loadWeights (fs : FS) (p : String × String) : Except String String :=
  match readFile fs p with
  | some w => Except.ok w
  | none => Except.error ("No such file: " ++ p.1 ++ "/" ++ p.2)

/-- `Imitation.evaluate` (source lines 139–177): run the expert for
`eval_episodes` episodes, then load the persisted student weights
`model/<log_dir>.h5` — an error there propagates uncaught — and run the
student determined by the loaded blob (`modelOf`) for the same number of
episodes.  The printed statistics are determined by the returned reward
lists.  The outer `none` models a non-terminating episode. -/
def evaluate {S : Type} (expert : Policy S) (modelOf : String → Policy S) (env : Env S)
    (fuel eval_episodes : Nat) (fs : FS) (log_dir : String) :
    Option (Except String (List Rat × List Rat)) :=
  match evalTotals expert env fuel eval_episodes with
  | none => none
  | some expert_rewards =>
    match loadWeights fs ("model", log_dir ++ ".h5") with
    | Except.error e => some (Except.error e)
    | Except.ok w =>
      match evalTotals (modelOf w) env fuel eval_episodes with
      | none => none
      | some rewards => some (Except.ok (expert_rewards, rewards))

/-- The three mode flags of the argument parser that `main` dispatches on. -/
structure Args where
  train : Bool
  test : Bool
  plot : Bool
deriving DecidableEq

/-- The three modes `main` can run. -/
inductive Mode where
  | train : Mode
  | test : Mode
  | plot : Mode
deriving DecidableEq

/-- The modes actually run by `main` (source lines 231–236): an
`if/elif/elif` chain, so at most one branch executes. -/
def mainModes (a : Args) : List Mode :=
  if a.train then [Mode.train]
  else if a.test then [Mode.test]
  else if a.plot then [Mode.plot]
  else []

/-- A concrete policy for witnesses: always predicts `[1, 0]`. -/
def constModel : Policy Nat := fun _ => [1, 0]

/-- A second, syntactically different policy with the same predictions as
`constModel` at every observation. -/
def constModelB : Policy Nat := fun s => if s ≤ s + 1 then [1, 0] else [0, 1]

/-- A concrete policy whose arg-max action is `1`, used as an expert that
disagrees with `constModel`. -/
def flipModel : Policy Nat := fun _ => [0, 1]

/-- A concrete 3-step environment: observations count steps, every
transition has reward `1`, and `done` is returned on the third step. -/
def threeStepEnv : Env Nat :=
  { reset := 0, step := fun s _ => (s + 1, 1, s == 2), action_space_n := 2 }

/-- A concrete environment whose very first step returns `done`. -/
def oneStepEnv : Env Nat :=
  { reset := 0, step := fun s _ => (s + 1, 5, true), action_space_n := 2 }

/-- A stub optimizer whose history reports losses `[5, 3, 1]`. -/
def stubFit : List Nat → List (List Nat) → History :=
  fun _ _ => ⟨[5, 3, 1], [0, 1, 1]⟩

/-- The empty filesystem. -/
def emptyFS : FS := ⟨[], []⟩

/-- Specification-side definition (not in the source): the *complete*
sequence of transitions `(post-step observation, action, reward)` taken by
the greedy policy, *including* the terminal transition on which `done` is
returned.  Comparing `generate_episode` against `fullTrajectory` makes the
"stop on done, before recording" truncation explicit. -/
def fullTrajectory {S : Type} (model : Policy S) (env : Env S) :
    Nat → S → Option (List (S × Nat × Rat))
  | 0, _ => none
  | fuel + 1, obs =>
    let action := npArgmax (model obs)
    let res := env.step obs action
    if res.2.2 then some [(res.1, action, res.2.1)]
    else (fullTrajectory model env fuel res.1).map fun tr =>
      (res.1, action, res.2.1) :: tr

/-- A trajectory produced by `fullTrajectory` is never empty: it always ends
with the terminal transition. -/
theorem fullTrajectory_ne_nil {S : Type} (model : Policy S) (env : Env S) :
    ∀ (fuel : Nat) (obs : S) (tr : List (S × Nat × Rat)),
      fullTrajectory model env fuel obs = some tr → tr ≠ [] := by
  intro fuel obs tr h
  cases fuel with
  | zero => simp [fullTrajectory] at h
  | succ n =>
    simp only [fullTrajectory] at h
    split at h
    · simp at h
      subst h
      simp
    · cases htr : fullTrajectory model env n (env.step obs (npArgmax (model obs))).1 with
      | none => rw [htr] at h; simp at h
      | some tr' => rw [htr] at h; simp at h; subst h; simp

/-- The rollout loop returns exactly the full trajectory with its last
(terminal) transition dropped, each component projected out. -/
theorem genLoop_eq_fullTrajectory {S : Type} (model : Policy S) (env : Env S) :
    ∀ (fuel : Nat) (obs : S),
      genLoop model env fuel obs
        = (fullTrajectory model env fuel obs).map fun tr =>
            (tr.dropLast.map (fun t => t.1),
             tr.dropLast.map (fun t => oneHot env.action_space_n t.2.1),
             tr.dropLast.map (fun t => t.2.2)) := by
  intro fuel
  induction fuel with
  | zero => intro obs; simp [genLoop, fullTrajectory]
  | succ n ih =>
    intro obs
    simp only [genLoop, fullTrajectory]
    split
    · simp
    · cases htr : fullTrajectory model env n (env.step obs (npArgmax (model obs))).1 with
      | none => rw [ih, htr]; simp
      | some tr' =>
        rw [ih, htr]
        have hne := fullTrajectory_ne_nil model env n _ tr' htr
        simp only [Option.map_some']
        refine congrArg some ?_
        refine Prod.ext ?_ (Prod.ext ?_ ?_) <;>
          rw [List.dropLast_cons_of_ne_nil (fun h => hne (by simpa using h))] <;> simp

/-- `argmaxAux` returns either the running best index or the index of a
later list element, so it is bounded by `i + xs.length` whenever the
running best already is. -/
theorem argmaxAux_lt (xs : List Rat) :
    ∀ (i best : Nat) (v : Rat), best < i → argmaxAux xs i best v < i + xs.length := by
  induction xs with
  | nil => intro i best v h; simpa [argmaxAux] using h
  | cons x xs ih =>
    intro i best v h
    simp only [argmaxAux, List.length_cons]
    split
    · have h2 := ih (i + 1) i x (by omega)
      omega
    · have h2 := ih (i + 1) best v (by omega)
      omega

/-- `np.argmax` of a nonempty vector is a valid index into it. -/
theorem npArgmax_lt_length (l : List Rat) (h : l ≠ []) : npArgmax l < l.length := by
  cases l with
  | nil => simp at h
  | cons x xs =>
    simp only [npArgmax, List.length_cons]
    have h2 := argmaxAux_lt xs 1 0 x (by omega)
    omega

/-- The one-hot vector has one slot per action. -/
theorem oneHot_length (n i : Nat) : (oneHot n i).length = n := by
  simp [oneHot]

/-- Entry `j` of `oneHot n i` is `1` exactly at `j = i`. -/
theorem oneHot_getD (n i j : Nat) (h : j < n) :
    (oneHot n i).getD j 0 = if j = i then 1 else 0 := by
  have hl : j < (oneHot n i).length := by rw [oneHot_length]; exact h
  rw [List.getD_eq_getElem _ _ hl]
  simp [oneHot]

/-- For a valid action index, `oneHot` satisfies the claim's one-hot
predicate. -/
theorem oneHot_isOneHot (n i : Nat) (h : i < n) : isOneHot (oneHot n i) := by
  refine ⟨i, ?_, ?_, ?_⟩
  · rw [oneHot_length]; exact h
  · rw [oneHot_getD n i i h]; simp
  · intro j hj hne
    rw [oneHot_getD n i j (by rw [oneHot_length] at hj; exact hj)]
    simp [hne]

/-- Shape invariant of the rollout loop: the three lists have equal length,
and every recorded action vector is the one-hot encoding of the arg-max
prediction at some observation. -/
theorem genLoop_shape {S : Type} (model : Policy S) (env : Env S) :
    ∀ (fuel : Nat) (obs : S) (ss : List S) (as : List (List Nat)) (rs : List Rat),
      genLoop model env fuel obs = some (ss, as, rs) →
        ss.length = as.length ∧ as.length = rs.length ∧
        ∀ a ∈ as, ∃ s, a = oneHot env.action_space_n (npArgmax (model s)) := by
  intro fuel
  induction fuel with
  | zero => intro obs ss as rs h; simp [genLoop] at h
  | succ n ih =>
    intro obs ss as rs h
    simp only [genLoop] at h
    split at h
    · simp at h
      obtain ⟨h1, h2, h3⟩ := h
      subst h1; subst h2; subst h3
      simp
    · cases hg : genLoop model env n (env.step obs (npArgmax (model obs))).1 with
      | none => rw [hg] at h; simp at h
      | some t =>
        rw [hg] at h
        simp at h
        obtain ⟨ih1, ih2, ih3⟩ := ih _ t.1 t.2.1 t.2.2 (by rw [hg])
        obtain ⟨h1, h2, h3⟩ := h
        subst h1; subst h2; subst h3
        refine ⟨by simp [ih1], by simp [ih2], ?_⟩
        intro a ha
        rcases List.mem_cons.mp ha with hhd | htl
        · exact ⟨obs, hhd⟩
        · exact ih3 a htl

/-- The Python pattern `for s in l: acc.append(f s)` — a left fold that
appends — is `map`. -/
theorem foldl_append_eq_map {α β : Type} (f : α → β) :
    ∀ (l : List α) (acc : List β),
      l.foldl (fun acc s => acc ++ [f s]) acc = acc ++ l.map f := by
  intro l
  induction l with
  | nil => intro acc; simp
  | cons x xs ih => intro acc; simp [ih]

/-- C1: `generate_episode` resets the environment and repeatedly selects the
arg-max action, steps the environment, stops immediately on `done` without
recording, and otherwise records the post-step observation, one-hot action
and reward.  Equivalently, its trace is the full greedy trajectory with the
terminal transition dropped; in particular an episode whose first step
returns `done` yields three empty lists. -/
theorem generate_episode_correct {S : Type} (model : Policy S) (env : Env S) (fuel : Nat) :
    generate_episode model env fuel
      = (fullTrajectory model env fuel env.reset).map (fun tr =>
          (tr.dropLast.map (fun t => t.1),
           tr.dropLast.map (fun t => oneHot env.action_space_n t.2.1),
           tr.dropLast.map (fun t => t.2.2)))
    ∧ ((env.step env.reset (npArgmax (model env.reset))).2.2 = true →
        generate_episode model env (fuel + 1) = some ([], [], [])) := by
  constructor
  · exact genLoop_eq_fullTrajectory model env fuel env.reset
  · intro hdone
    simp [generate_episode, genLoop, hdone]

/-- Witness for C1: a concrete environment whose very first step returns
`done` yields three empty lists. -/
theorem generate_episode_correct_witness :
    (oneStepEnv.step oneStepEnv.reset (npArgmax (constModel oneStepEnv.reset))).2.2 = true
    ∧ generate_episode constModel oneStepEnv (10 + 1) = some ([], [], []) :=
  ⟨by decide, (generate_episode_correct constModel oneStepEnv 10).2 (by decide)⟩

/-- C4: the three lists returned by `generate_episode` have equal length and
every recorded action vector is one-hot — exactly one entry `1`, all other
entries `0` — provided the model's prediction vector has one entry per
action and the action space is nonempty. -/
theorem generate_episode_trace_invariants {S : Type} (model : Policy S) (env : Env S)
    (fuel : Nat) (ss : List S) (as : List (List Nat)) (rs : List Rat)
    (hlen : ∀ s, (model s).length = env.action_space_n)
    (hpos : 0 < env.action_space_n)
    (h : generate_episode model env fuel = some (ss, as, rs)) :
    ss.length = as.length ∧ as.length = rs.length ∧ ∀ a ∈ as, isOneHot a := by
  obtain ⟨h1, h2, h3⟩ := genLoop_shape model env fuel env.reset ss as rs h
  refine ⟨h1, h2, ?_⟩
  intro a ha
  obtain ⟨s, rfl⟩ := h3 a ha
  apply oneHot_isOneHot
  have hne : model s ≠ [] := by
    intro hnil
    have h0 := hlen s
    rw [hnil] at h0
    simp at h0
    omega
  have hlt := npArgmax_lt_length (model s) hne
  rw [hlen s] at hlt
  exact hlt

/-- Witness for C4 at a concrete policy and 3-step environment. -/
theorem generate_episode_trace_invariants_witness :
    (∀ s, (constModel s).length = threeStepEnv.action_space_n)
    ∧ 0 < threeStepEnv.action_space_n
    ∧ generate_episode constModel threeStepEnv 10
        = some ([1, 2], [[1, 0], [1, 0]], [1, 1])
    ∧ ([1, 2].length = [[1, 0], [1, 0]].length
        ∧ [[1, 0], [1, 0]].length = ([1, 1] : List Rat).length
        ∧ ∀ a ∈ [[1, 0], [1, 0]], isOneHot a) :=
  ⟨fun _ => rfl, by decide, by decide,
   generate_episode_trace_invariants constModel threeStepEnv 10 [1, 2] [[1, 0], [1, 0]]
     [1, 1] (fun _ => rfl) (by decide) (by decide)⟩

/-- C6: `generate_episode` is deterministic — it depends only on the
policy's predictions and the environment's reset observation, transition
function and action count, with no source of randomness, so two rollouts
with pointwise-equal policies and environments produce identical traces. -/
theorem generate_episode_deterministic {S : Type} (m1 m2 : Policy S) (e1 e2 : Env S)
    (fuel : Nat) (hm : ∀ s, m1 s = m2 s) (hstep : ∀ s a, e1.step s a = e2.step s a)
    (hreset : e1.reset = e2.reset) (hn : e1.action_space_n = e2.action_space_n) :
    generate_episode m1 e1 fuel = generate_episode m2 e2 fuel := by
  have key : ∀ (f : Nat) (obs : S), genLoop m1 e1 f obs = genLoop m2 e2 f obs := by
    intro f
    induction f with
    | zero => intro obs; rfl
    | succ n ih =>
      intro obs
      simp only [genLoop, hm, hstep, hn, ih]
  unfold generate_episode
  rw [hreset, key]

/-- Witness for C6: two syntactically different policies with equal
predictions produce identical traces on the 3-step environment. -/
theorem generate_episode_deterministic_witness :
    (∀ s, constModel s = constModelB s)
    ∧ generate_episode constModel threeStepEnv 5 = generate_episode constModelB threeStepEnv 5 :=
  ⟨fun s => by simp [constModel, constModelB],
   generate_episode_deterministic constModel constModelB threeStepEnv threeStepEnv 5
     (fun s => by simp [constModel, constModelB]) (fun _ _ => rfl) rfl rfl⟩

/-- C8: `run_model` rolls out the *student* policy — the returned states and
rewards are the student's — and returns, per visited state, the one-hot
vector at the expert's arg-max prediction for that state, discarding the
student's own actions. -/
theorem run_model_relabels {S : Type} (expert model : Policy S) (env : Env S) (fuel : Nat)
    (ss : List S) (as : List (List Nat)) (rs : List Rat)
    (h : generate_episode model env fuel = some (ss, as, rs)) :
    run_model expert model env fuel
      = some (ss, ss.map (fun s => oneHot env.action_space_n (npArgmax (expert s))), rs) := by
  simp only [run_model, h]
  rw [foldl_append_eq_map]
  simp

/-- Witness for C8: with a student preferring action `0` and an expert
preferring action `1`, `run_model` keeps the student's states and rewards
but returns the expert's relabelled actions. -/
theorem run_model_relabels_witness :
    generate_episode constModel threeStepEnv 10 = some ([1, 2], [[1, 0], [1, 0]], [1, 1])
    ∧ run_model flipModel constModel threeStepEnv 10
        = some ([1, 2],
            [1, 2].map (fun s => oneHot threeStepEnv.action_space_n (npArgmax (flipModel s))),
            [1, 1]) :=
  ⟨by decide,
   run_model_relabels flipModel constModel threeStepEnv 10 [1, 2] [[1, 0], [1, 0]] [1, 1]
     (by decide)⟩

/-- The reward-accumulation loop computes a running total plus the rewards
of all non-terminal transitions of the remaining trajectory. -/
theorem evalLoop_eq_sum {S : Type} (model : Policy S) (env : Env S) :
    ∀ (fuel : Nat) (obs : S) (t : Rat),
      evalLoop model env fuel obs t
        = (fullTrajectory model env fuel obs).map
            (fun tr => t + (tr.dropLast.map (fun x => x.2.2)).sum) := by
  intro fuel
  induction fuel with
  | zero => intro obs t; rfl
  | succ n ih =>
    intro obs t
    simp only [evalLoop, fullTrajectory]
    split
    · simp
    · cases htr : fullTrajectory model env n (env.step obs (npArgmax (model obs))).1 with
      | none => rw [ih, htr]; rfl
      | some tr' =>
        rw [ih, htr]
        have hne := fullTrajectory_ne_nil model env n _ tr' htr
        simp only [Option.map_some']
        rw [List.dropLast_cons_of_ne_nil hne]
        simp [add_assoc]

/-- C3: in both evaluation loops of `evaluate`, the per-episode total reward
is the sum of the rewards of the non-terminal transitions only — the reward
of the transition on which `done` is returned is never added.  On the
concrete 3-step environment with rewards `[1, 1, 1]` and `done` on step 3,
the accumulated total is `2`. -/
theorem evaluate_total_reward {S : Type} (model : Policy S) (env : Env S) (fuel : Nat) :
    evalEpisode model env fuel
      = (fullTrajectory model env fuel env.reset).map
          (fun tr => (tr.dropLast.map (fun x => x.2.2)).sum)
    ∧ evalEpisode constModel threeStepEnv 10 = some 2 := by
  constructor
  · have key := evalLoop_eq_sum model env fuel env.reset 0
    simpa [evalEpisode] using key
  · norm_num [evalEpisode, evalLoop, threeStepEnv, constModel, npArgmax, argmaxAux]

/-- All expert episodes being identical (the environment is deterministic),
the aggregated training set is the episode's states and actions repeated
`N` times, in order. -/
theorem trainData_replicate {S : Type} (expert : Policy S) (env : Env S) (fuel : Nat)
    (ep : List S × List (List Nat) × List Rat)
    (h : generate_episode expert env fuel = some ep) :
    ∀ N, trainData expert env fuel N
      = some ((List.replicate N ep.1).flatten, (List.replicate N ep.2.1).flatten) := by
  intro N
  induction N with
  | zero => rfl
  | succ n ih =>
    simp only [trainData, ih, h]
    simp [List.replicate_succ', List.flatten_append]

/-- C5: for `N` expert episodes, `train`'s aggregated dataset is the
episode traces concatenated in order (each episode's rows in within-episode
order), the observation and action row counts match, and the row count is
the sum of the `N` individual episode trace lengths. -/
theorem train_dataset_rows {S : Type} (expert : Policy S) (env : Env S) (fuel N : Nat)
    (ep : List S × List (List Nat) × List Rat)
    (h : generate_episode expert env fuel = some ep) :
    trainData expert env fuel N
      = some ((List.replicate N ep.1).flatten, (List.replicate N ep.2.1).flatten)
    ∧ ((List.replicate N ep.1).flatten).length = ((List.replicate N ep.2.1).flatten).length
    ∧ ((List.replicate N ep.1).flatten).length = (List.replicate N ep.1.length).sum := by
  obtain ⟨ss, as, rs⟩ := ep
  refine ⟨trainData_replicate expert env fuel (ss, as, rs) h N, ?_, ?_⟩
  · have hlen := (genLoop_shape expert env fuel env.reset ss as rs h).1
    simp [List.length_flatten, List.map_replicate, List.sum_replicate, hlen]
  · simp [List.length_flatten, List.map_replicate, List.sum_replicate]

/-- Witness for C5 with two expert episodes on the 3-step environment. -/
theorem train_dataset_rows_witness :
    generate_episode constModel threeStepEnv 10 = some ([1, 2], [[1, 0], [1, 0]], [1, 1])
    ∧ (trainData constModel threeStepEnv 10 2
        = some ((List.replicate 2 [1, 2]).flatten, (List.replicate 2 [[1, 0], [1, 0]]).flatten)
       ∧ ((List.replicate 2 [1, 2]).flatten).length
           = ((List.replicate 2 [[1, 0], [1, 0]]).flatten).length
       ∧ ((List.replicate 2 [1, 2]).flatten).length = (List.replicate 2 [1, 2].length).sum) :=
  ⟨by decide,
   train_dataset_rows constModel threeStepEnv 10 2 ([1, 2], [[1, 0], [1, 0]], [1, 1])
     (by decide)⟩

/-- C2: the pair returned by `train` is the *first* epoch's loss and
accuracy from the optimizer's history (`history.history['loss'][0]`,
`history.history['acc'][0]`), not the last epoch's. -/
theorem train_returns_first_epoch {S : Type} (expert : Policy S) (env : Env S)
    (fuel N : Nat) (fit : List S → List (List Nat) → History) (W : String) (fs : FS)
    (L : String) (ts : List S) (ta : List (List Nat))
    (h1 : trainData expert env fuel N = some (ts, ta))
    (h2 : (fit ts ta).loss ≠ []) (h3 : (fit ts ta).acc ≠ []) :
    ∃ fs2, train expert env fuel N fit W fs L
      = some (fs2, (fit ts ta).loss.headI, (fit ts ta).acc.headI) := by
  simp only [train, h1]
  cases hl : (fit ts ta).loss with
  | nil => exact absurd hl h2
  | cons l ls =>
    cases ha : (fit ts ta).acc with
    | nil => exact absurd ha h3
    | cons a as =>
      simp only [hl, ha, List.headI]
      exact ⟨_, rfl⟩

/-- Witness for C2: with a stub optimizer reporting losses `[5, 3, 1]`, the
returned loss is `5` — the first epoch's value, not the last's. -/
theorem train_returns_first_epoch_witness :
    trainData constModel threeStepEnv 10 1 = some ([1, 2], [[1, 0], [1, 0]])
    ∧ (stubFit [1, 2] [[1, 0], [1, 0]]).loss ≠ []
    ∧ (stubFit [1, 2] [[1, 0], [1, 0]]).acc ≠ []
    ∧ (stubFit [1, 2] [[1, 0], [1, 0]]).loss.headI = 5
    ∧ ∃ fs2, train constModel threeStepEnv 10 1 stubFit "weights" emptyFS "run"
        = some (fs2, (stubFit [1, 2] [[1, 0], [1, 0]]).loss.headI,
            (stubFit [1, 2] [[1, 0], [1, 0]]).acc.headI) :=
  ⟨by decide, by decide, by decide, by decide,
   train_returns_first_epoch constModel threeStepEnv 10 1 stubFit "weights" emptyFS "run"
     [1, 2] [[1, 0], [1, 0]] (by decide) (by decide) (by decide)⟩

/-- Creating a directory does not touch the files. -/
theorem mkdirIfAbsent_files (fs : FS) (d : String) : (mkdirIfAbsent fs d).files = fs.files := by
  unfold mkdirIfAbsent
  split <;> rfl

/-- After `mkdirIfAbsent`, the directory exists. -/
theorem mem_mkdirIfAbsent_self (fs : FS) (d : String) : d ∈ (mkdirIfAbsent fs d).dirs := by
  unfold mkdirIfAbsent
  split
  · assumption
  · exact List.mem_cons_self _ _

/-- `mkdirIfAbsent` preserves existing directories. -/
theorem mem_mkdirIfAbsent (fs : FS) (d e : String) (h : e ∈ fs.dirs) :
    e ∈ (mkdirIfAbsent fs d).dirs := by
  unfold mkdirIfAbsent
  split
  · exact h
  · exact List.mem_cons_of_mem _ h

/-- The most recent write at a path is what a read returns. -/
theorem findFile_head (rest : List ((String × String) × String)) (p : String × String)
    (c : String) : findFile ((p, c) :: rest) p = some c := by
  simp [findFile]

/-- A write at a different path does not affect a read. -/
theorem findFile_ne (rest : List ((String × String) × String)) (q p : String × String)
    (c : String) (h : q ≠ p) : findFile ((q, c) :: rest) p = findFile rest p := by
  simp [findFile, h]

/-- Paths under different directories differ. -/
theorem path_ne (d1 d2 f1 f2 : String) (h : d1 ≠ d2) : (d1, f1) ≠ (d2, f2) :=
  fun he => h (congrArg Prod.fst he)

/-- C9: a successful `train` call returns the written filesystem: the
`model`, `loss` and `acc` directories exist, the fitted weights are at
`model/<log_dir>.h5`, and the comma-joined per-epoch loss and accuracy
sequences are at `loss/<log_dir>.txt` and `acc/<log_dir>.txt`. -/
theorem train_persists {S : Type} (expert : Policy S) (env : Env S) (fuel N : Nat)
    (fit : List S → List (List Nat) → History) (W : String) (fs : FS) (L : String)
    (ts : List S) (ta : List (List Nat)) (l a : Rat) (ls as : List Rat)
    (h1 : trainData expert env fuel N = some (ts, ta))
    (h2 : (fit ts ta).loss = l :: ls) (h3 : (fit ts ta).acc = a :: as) :
    ∃ fs2, train expert env fuel N fit W fs L = some (fs2, l, a)
      ∧ "model" ∈ fs2.dirs ∧ "loss" ∈ fs2.dirs ∧ "acc" ∈ fs2.dirs
      ∧ readFile fs2 ("model", L ++ ".h5") = some W
      ∧ readFile fs2 ("loss", L ++ ".txt") = some (commaJoin (fit ts ta).loss)
      ∧ readFile fs2 ("acc", L ++ ".txt") = some (commaJoin (fit ts ta).acc) := by
  simp only [train, h1, h2, h3]
  refine ⟨_, rfl, ?_, ?_, ?_, ?_, ?_, ?_⟩
  · show "model" ∈ (writeFile (mkdirIfAbsent _ "acc") _ _).dirs
    exact mem_mkdirIfAbsent _ _ _ (mem_mkdirIfAbsent _ _ _ (mem_mkdirIfAbsent_self _ _))
  · show "loss" ∈ (writeFile (mkdirIfAbsent _ "acc") _ _).dirs
    exact mem_mkdirIfAbsent _ _ _ (mem_mkdirIfAbsent_self _ _)
  · exact mem_mkdirIfAbsent_self _ _
  · show readFile (writeFile (mkdirIfAbsent _ "acc") _ _) _ = some W
    simp only [readFile, writeFile, mkdirIfAbsent_files]
    rw [findFile_ne _ _ _ _ (path_ne _ _ _ _ (by decide))]
    rw [findFile_ne _ _ _ _ (path_ne _ _ _ _ (by decide))]
    exact findFile_head _ _ _
  · show readFile (writeFile (mkdirIfAbsent _ "acc") _ _) _ = some (commaJoin (l :: ls))
    simp only [readFile, writeFile, mkdirIfAbsent_files]
    rw [findFile_ne _ _ _ _ (path_ne _ _ _ _ (by decide))]
    exact findFile_head _ _ _
  · show readFile (writeFile (mkdirIfAbsent _ "acc") _ _) _ = some (commaJoin (a :: as))
    simp only [readFile, writeFile, mkdirIfAbsent_files]
    exact findFile_head _ _ _

/-- Witness for C9: a concrete training run persists the weight blob and the
comma-joined histories of the stub optimizer. -/
theorem train_persists_witness :
    trainData constModel threeStepEnv 10 1 = some ([1, 2], [[1, 0], [1, 0]])
    ∧ (stubFit [1, 2] [[1, 0], [1, 0]]).loss = 5 :: [3, 1]
    ∧ (stubFit [1, 2] [[1, 0], [1, 0]]).acc = 0 :: [1, 1]
    ∧ ∃ fs2, train constModel threeStepEnv 10 1 stubFit "weights" emptyFS "run"
        = some (fs2, 5, 0)
        ∧ "model" ∈ fs2.dirs ∧ "loss" ∈ fs2.dirs ∧ "acc" ∈ fs2.dirs
        ∧ readFile fs2 ("model", "run" ++ ".h5") = some "weights"
        ∧ readFile fs2 ("loss", "run" ++ ".txt")
            = some (commaJoin (stubFit [1, 2] [[1, 0], [1, 0]]).loss)
        ∧ readFile fs2 ("acc", "run" ++ ".txt")
            = some (commaJoin (stubFit [1, 2] [[1, 0], [1, 0]]).acc) :=
  ⟨by decide, by decide, by decide,
   train_persists constModel threeStepEnv 10 1 stubFit "weights" emptyFS "run"
     [1, 2] [[1, 0], [1, 0]] 5 0 [3, 1] [1, 1] (by decide) (by decide) (by decide)⟩

/-- C7: when no weights file `model/<log_dir>.h5` exists, `evaluate`
propagates an uncaught load error after the expert phase, and never returns
a successful result from untrained weights. -/
theorem evaluate_missing_weights {S : Type} (expert : Policy S)
    (modelOf : String → Policy S) (env : Env S) (fuel nEp : Nat) (fs : FS) (L : String)
    (ex : List Rat)
    (h1 : evalTotals expert env fuel nEp = some ex)
    (h2 : readFile fs ("model", L ++ ".h5") = none) :
    (∃ e, evaluate expert modelOf env fuel nEp fs L = some (Except.error e))
    ∧ ∀ r, evaluate expert modelOf env fuel nEp fs L ≠ some (Except.ok r) := by
  have hev : evaluate expert modelOf env fuel nEp fs L
      = some (Except.error ("No such file: " ++ "model" ++ "/" ++ (L ++ ".h5"))) := by
    simp only [evaluate, h1, loadWeights, h2]
  refine ⟨⟨_, hev⟩, ?_⟩
  intro r hr
  rw [hev] at hr
  simp at hr

/-- Witness for C7 on the empty filesystem. -/
theorem evaluate_missing_weights_witness :
    evalTotals constModel threeStepEnv 10 0 = some []
    ∧ readFile emptyFS ("model", "run" ++ ".h5") = none
    ∧ (∃ e, evaluate constModel (fun _ => constModel) threeStepEnv 10 0 emptyFS "run"
        = some (Except.error e))
    ∧ ∀ r, evaluate constModel (fun _ => constModel) threeStepEnv 10 0 emptyFS "run"
        ≠ some (Except.ok r) :=
  ⟨rfl, rfl,
   (evaluate_missing_weights constModel (fun _ => constModel) threeStepEnv 10 0 emptyFS
     "run" [] rfl rfl).1,
   (evaluate_missing_weights constModel (fun _ => constModel) threeStepEnv 10 0 emptyFS
     "run" [] rfl rfl).2⟩

/-- C10: `main` dispatches through an `if/elif/elif` chain, so at most one
mode runs, with precedence train over test over plot: with both `--train`
and `--test` set only training runs, and with no flag set no mode runs. -/
theorem main_mode_precedence :
    (∀ a : Args, (mainModes a).length ≤ 1)
    ∧ mainModes ⟨true, true, true⟩ = [Mode.train]
    ∧ mainModes ⟨true, true, false⟩ = [Mode.train]
    ∧ mainModes ⟨true, false, true⟩ = [Mode.train]
    ∧ mainModes ⟨false, true, true⟩ = [Mode.test]
    ∧ mainModes ⟨false, true, false⟩ = [Mode.test]
    ∧ mainModes ⟨false, false, true⟩ = [Mode.plot]
    ∧ mainModes ⟨false, false, false⟩ = [] := by
  refine ⟨?_, by decide, by decide, by decide, by decide, by decide, by decide, by decide⟩
  intro a
  obtain ⟨t, te, p⟩ := a
  cases t <;> cases te <;> cases p <;> simp [mainModes]

end Imitation
